import Mathlib

/-!
Verification of the replay action model, navigation engine and board
coordinate mapper of `rc_chess_replay.py` (reconchess replay script).

The Python source is shallowly embedded: pure methods become Lean
functions, the mutable `ReplayWindow` navigation state becomes a record
passed explicitly, Python `None` becomes `Option`, Python integers become
`Int` (with floor division `Int.fdiv` matching Python's `//`), and the
`TypeError` raised by `None -= 1` becomes an `Except.error`.
-/

namespace RcChessReplay

/-! ## Board coordinate mapper (ReplayWindow.coords_to_square / square_to_coords)

`perspective` is a `Bool` following python-chess: `true` is `chess.WHITE`,
`false` is `chess.BLACK`. `chess.square file rank` is `rank * 8 + file`,
`chess.square_rank sq` is `sq >>> 3` and `chess.square_file sq` is `sq &&& 7`
(python-chess library semantics). -/

/-- `self.square_size = 80` from `ReplayWindow.__init__`. -/
def square_size : Nat := 80

/-- `self.height = self.square_size * 9` from `ReplayWindow.__init__`:
the window is the 8-row board plus one extra row for the control strip. -/
def height : Nat := square_size * 9

/-- Embeds `chess.square(file_index, rank_index) = rank_index * 8 + file_index`
(python-chess). No bounds check is performed, exactly as in the library. -/
def chessSquare (file rank : Int) : Int := rank * 8 + file

/-- Embeds `ReplayWindow.coords_to_square(x, y)` (source lines 232-238):
`file = x // square_size`; for the white perspective
`rank = (height - y) // square_size`, otherwise `rank = y // square_size`;
returns `chess.square(file, rank)`. Python `//` is floor division,
hence `Int.fdiv`. -/
def coords_to_square (perspective : Bool) (x y : Int) : Int :=
  let file := x.fdiv (square_size : Int)
  let rank :=
    if perspective then ((height : Int) - y).fdiv (square_size : Int)
    else y.fdiv (square_size : Int)
  chessSquare file rank

/-- Embeds `ReplayWindow.square_to_coords(square)` (source lines 240-248):
`rank = chess.square_rank(square)`, `file = chess.square_file(square)`,
`x = file * square_size`, and `y = (7 - rank) * square_size` for the white
perspective, `y = rank * square_size` otherwise. -/
def square_to_coords (perspective : Bool) (sq : Nat) : Int × Int :=
  let rank := sq >>> 3
  let file := sq &&& 7
  let x := (file : Int) * (square_size : Int)
  let y :=
    if perspective then ((7 : Int) - (rank : Int)) * (square_size : Int)
    else (rank : Int) * (square_size : Int)
  (x, y)

end RcChessReplay

namespace RcChessReplay

/-- C3: The roundtrip at square a1 (square 0) under the white perspective:
`square_to_coords` places a1 at `(0, 560)`, and `coords_to_square` maps
`(0, 560)` back to square 16 (a3), not 0, because `coords_to_square`
subtracts `y` from the full window height (9 rows, 720 px) instead of the
8-row board height (640 px). -/
theorem coords_to_square_square_to_coords_a1_white :
    square_to_coords true 0 = (0, 560) ∧
    coords_to_square true 0 560 = 16 ∧ (16 : Int) ≠ 0 := by
  refine ⟨rfl, by decide, by decide⟩

/-- C8 counterexample: the out-of-grid coordinate `(640, 0)` (just past the
right edge of the board, which spans x in `[0, 640)`) under the black
perspective is mapped to square 8 — square a2, a valid board square — not
to any distinguished out-of-board result. -/
theorem coords_to_square_out_of_grid_aliases :
    (640 : Int) ≥ 8 * (square_size : Int) ∧
    coords_to_square false 640 0 = 8 ∧
    (0 : Int) ≤ 8 ∧ (8 : Int) < 64 := by
  refine ⟨by decide, by decide, by decide, by decide⟩

/-- C8 amended: `coords_to_square` performs no bounds check. Every click in
the control strip below the board (board rows span y in `[0, 640)`, the
strip is `(640, 720]`) with an in-range x coordinate is mapped, under the
white perspective, to a valid rank-0 board square (a value in `[0, 8)`),
not to an out-of-board marker. -/
theorem coords_to_square_no_out_of_board (x y : Int)
    (hx0 : 0 ≤ x) (hx : x < 640) (hy0 : 640 < y) (hy : y ≤ 720) :
    0 ≤ coords_to_square true x y ∧ coords_to_square true x y < 8 := by
  have hs : (square_size : Int) = 80 := by norm_num [square_size]
  have hh : (height : Int) = 720 := by norm_num [height, square_size]
  have hfile0 : 0 ≤ x.fdiv 80 := by
    rw [Int.fdiv_eq_ediv _ (by omega)]
    exact Int.ediv_nonneg hx0 (by omega)
  have hfile : x.fdiv 80 < 8 := by
    rw [Int.fdiv_eq_ediv _ (by omega)]
    exact Int.ediv_lt_of_lt_mul (by omega) (by omega)
  have hrank : ((720 : Int) - y).fdiv 80 = 0 := by
    rw [Int.fdiv_eq_ediv _ (by omega)]
    exact Int.ediv_eq_zero_of_lt (by omega) (by omega)
  simp only [coords_to_square, chessSquare, hs, hh, if_true, hrank]
  omega

/-- C8 amended, witness at the concrete strip coordinate `(0, 700)`. -/
theorem coords_to_square_no_out_of_board_witness :
    0 ≤ coords_to_square true 0 700 ∧ coords_to_square true 0 700 < 8 :=
  coords_to_square_no_out_of_board 0 700 (by decide) (by decide) (by decide)
    (by decide)

end RcChessReplay

namespace RcChessReplay

/-! ## Navigation state machine (ReplayWindow navigation methods)

The navigation-relevant mutable state of `ReplayWindow`:
`self.actions` contributes only its length `numActions`; `self.action_index`
is `None` or a Python int, hence `Option Int`; `self.buttons[k].enabled`
for the four buttons created in `__init__` — index 0 is the `<<` button
(`go_to_beginning`), 1 is `<` (`go_backwards`), 2 is `>` (`go_forwards`),
3 is `>>` (`go_to_end`). -/

structure NavWindow where
  numActions : Nat
  action_index : Option Int
  b0 : Bool
  b1 : Bool
  b2 : Bool
  b3 : Bool
  deriving DecidableEq, Repr

/-- Embeds `ReplayWindow.go_to_beginning` (source lines 196-201):
`action_index = None`; buttons `<<` and `<` disabled, `>` and `>>` enabled. -/
def go_to_beginning (w : NavWindow) : NavWindow :=
  { w with action_index := none, b0 := false, b1 := false,
           b2 := true, b3 := true }

/-- Embeds `ReplayWindow.go_to_end` (source lines 203-208):
`action_index = len(self.actions) - 1` (Python int arithmetic, so `-1`
when the action list is empty); buttons `<<`, `<` enabled, `>`, `>>`
disabled. -/
def go_to_end (w : NavWindow) : NavWindow :=
  { w with action_index := some ((w.numActions : Int) - 1),
           b0 := true, b1 := true, b2 := false, b3 := false }

/-- Embeds `ReplayWindow.go_forwards` (source lines 210-220):
`action_index` becomes `0` from `None`, otherwise it is incremented —
with no upper-bound check; buttons `<<`, `<` enabled, `>`, `>>` enabled
exactly when the new index is `< len(self.actions) - 1`. -/
def go_forwards (w : NavWindow) : NavWindow :=
  let i : Int := match w.action_index with
    | none => 0
    | some i => i + 1
  { w with action_index := some i,
           b0 := true, b1 := true,
           b2 := decide (i < (w.numActions : Int) - 1),
           b3 := decide (i < (w.numActions : Int) - 1) }

/-- Embeds `ReplayWindow.go_backwards` (source lines 222-230):
`if self.action_index == 0: self.action_index = None else:
self.action_index -= 1`. When `action_index` is `None`, the comparison
`None == 0` is false, so Python executes `None -= 1`, raising a
`TypeError`; this is the `Except.error` case. Buttons `<<`, `<` enabled
exactly when the new index `is not None`; `>`, `>>` enabled. -/
def go_backwards (w : NavWindow) : Except String NavWindow :=
  match w.action_index with
  | none => .error "TypeError"
  | some i =>
    let i2 : Option Int := if i = 0 then none else some (i - 1)
    .ok { w with action_index := i2,
                 b0 := i2.isSome, b1 := i2.isSome, b2 := true, b3 := true }

/-- The navigation state of a fresh `ReplayWindow` with `N` actions:
`__init__` (source lines 176-194) creates the four buttons with
`enabled = True` and then calls `self.go_to_beginning()`. -/
def initWindow (N : Nat) : NavWindow :=
  go_to_beginning { numActions := N, action_index := none,
                    b0 := true, b1 := true, b2 := true, b3 := true }

/-- The window states reachable through the UI: buttons only fire their
callback when enabled (`Button.update`, source lines 80-84, guards on
`self.enabled`), and the auto-advance path calls `go_forwards` only when
`action_index is None` or `< len(actions) - 1` (source lines 272-275),
a strictly stronger guard than `b2` on reachable states, so UI-reachable
states are covered by these four guarded rules. -/
inductive Reachable (N : Nat) : NavWindow → Prop
  | init : Reachable N (initWindow N)
  | toStart (w : NavWindow) : Reachable N w → w.b0 = true →
      Reachable N (go_to_beginning w)
  | backward (w w' : NavWindow) : Reachable N w → w.b1 = true →
      go_backwards w = .ok w' → Reachable N w'
  | forward (w : NavWindow) : Reachable N w → w.b2 = true →
      Reachable N (go_forwards w)
  | toEnd (w : NavWindow) : Reachable N w → w.b3 = true →
      Reachable N (go_to_end w)

/-- The inductive invariant of the navigation machine for `N > 0`:
either the machine is before the start (`action_index = None`, backward
controls disabled, forward controls enabled), or it sits on a valid
index `i ≤ N - 1` with backward controls enabled and forward controls
enabled exactly when `i < N - 1`. -/
def NavInv (N : Nat) (w : NavWindow) : Prop :=
  w.numActions = N ∧
  ((w.action_index = none ∧ w.b0 = false ∧ w.b1 = false ∧
      w.b2 = true ∧ w.b3 = true) ∨
   (∃ i : Nat, w.action_index = some (i : Int) ∧ i + 1 ≤ N ∧
      w.b0 = true ∧ w.b1 = true ∧
      w.b2 = decide ((i : Int) < (N : Int) - 1) ∧
      w.b3 = decide ((i : Int) < (N : Int) - 1)))

theorem navInv_init (N : Nat) : NavInv N (initWindow N) := by
  refine ⟨rfl, Or.inl ⟨rfl, rfl, rfl, rfl, rfl⟩⟩

theorem navInv_reachable {N : Nat} (hN : 0 < N) {w : NavWindow}
    (h : Reachable N w) : NavInv N w := by
  induction h with
  | init => exact navInv_init N
  | toStart w _ _ ih =>
    exact ⟨ih.1, Or.inl ⟨rfl, rfl, rfl, rfl, rfl⟩⟩
  | backward w w' _ hb1 hok ih =>
    obtain ⟨hnum, hcase⟩ := ih
    rcases hcase with ⟨_, _, hb1f, _, _⟩ | ⟨i, hidx, hle, _, _, _, _⟩
    · rw [hb1] at hb1f; cases hb1f
    · rw [go_backwards, hidx] at hok
      simp only [Except.ok.injEq] at hok
      subst hok
      by_cases hi0 : (i : Int) = 0
      · refine ⟨hnum, Or.inl ?_⟩
        simp [hi0]
      · refine ⟨hnum, Or.inr ⟨i - 1, ?_, by omega, ?_, ?_, ?_, ?_⟩⟩
        · simp only [hi0, if_neg]
          have : ((i : Int)) - 1 = ((i - 1 : Nat) : Int) := by
            have : i ≠ 0 := by exact_mod_cast fun h => hi0 (by simp [h])
            omega
          simp [this]
        · simp [hi0]
        · simp [hi0]
        · have : i ≠ 0 := by exact_mod_cast fun h => hi0 (by simp [h])
          simp only [hi0, if_neg]
          have : ((i - 1 : Nat) : Int) < (N : Int) - 1 := by omega
          simp [this]
        · have : i ≠ 0 := by exact_mod_cast fun h => hi0 (by simp [h])
          simp only [hi0, if_neg]
          have : ((i - 1 : Nat) : Int) < (N : Int) - 1 := by omega
          simp [this]
  | forward w _ hb2 ih =>
    obtain ⟨hnum, hcase⟩ := ih
    rcases hcase with ⟨hidx, _, _, _, _⟩ | ⟨i, hidx, hle, _, _, hb2v, _⟩
    · refine ⟨hnum, Or.inr ⟨0, ?_, hN, rfl, rfl, ?_, ?_⟩⟩
      · simp [go_forwards, hidx]
      · simp [go_forwards, hidx, hnum]
      · simp [go_forwards, hidx, hnum]
    · have hlt : (i : Int) < (N : Int) - 1 := by
        rw [hb2v] at hb2
        exact of_decide_eq_true hb2
      refine ⟨hnum, Or.inr ⟨i + 1, ?_, by omega, rfl, rfl, ?_, ?_⟩⟩
      · simp only [go_forwards, hidx]
        simp [Int.add_comm]
      · simp only [go_forwards, hidx, hnum]
        have : ((i : Int) + 1 < (N : Int) - 1) = (((i + 1 : Nat) : Int) < (N : Int) - 1) := by
          push_cast
          ring_nf
        simp [this]
      · simp only [go_forwards, hidx, hnum]
        have : ((i : Int) + 1 < (N : Int) - 1) = (((i + 1 : Nat) : Int) < (N : Int) - 1) := by
          push_cast
          ring_nf
        simp [this]
  | toEnd w _ _ ih =>
    obtain ⟨hnum, _⟩ := ih
    refine ⟨hnum, Or.inr ⟨N - 1, ?_, by omega, rfl, rfl, ?_, ?_⟩⟩
    · simp only [go_to_end, hnum]
      have : ((N : Int)) - 1 = ((N - 1 : Nat) : Int) := by omega
      simp [this]
    · have : ¬ (((N - 1 : Nat) : Int) < (N : Int) - 1) := by omega
      simp [go_to_end, this]
    · have : ¬ (((N - 1 : Nat) : Int) < (N : Int) - 1) := by omega
      simp [go_to_end, this]

/-- C1 counterexample: with a single action (`N = 1`), `go_forwards` from
`BeforeStart` reaches `At(0) = At(N-1)`; a further `go_forwards` is not a
no-op — it advances the index to `1`, past the end of the sequence. -/
theorem go_forwards_at_end_not_noop :
    (go_forwards (initWindow 1)).action_index = some 0 ∧
    (go_forwards (go_forwards (initWindow 1))).action_index = some 1 ∧
    some (1 : Int) ≠ some (0 : Int) := by decide

/-- C1 amended: `go_forwards` maps `BeforeStart` to `At(0)` and `At(i)` to
`At(i+1)` unconditionally — at `At(N-1)` it is not a no-op but moves to the
out-of-range index `N`; the UI never invokes it there because on every
reachable state with `action_index = N - 1` the forward controls (`>` and
`>>` buttons) are disabled. -/
theorem go_forwards_spec (N : Nat) (hN : 0 < N) (w : NavWindow)
    (h : Reachable N w) :
    (go_forwards w).action_index =
      (match w.action_index with
       | none => some 0
       | some i => some (i + 1)) ∧
    (w.action_index = some ((N : Int) - 1) → w.b2 = false ∧ w.b3 = false) := by
  obtain ⟨hnum, hcase⟩ := navInv_reachable hN h
  constructor
  · cases hw : w.action_index <;> simp [go_forwards, hw]
  · intro hend
    rcases hcase with ⟨hidx, _⟩ | ⟨i, hidx, hle, _, _, hb2v, hb3v⟩
    · rw [hidx] at hend; cases hend
    · rw [hidx, Option.some.injEq] at hend
      have hnlt : ¬ ((i : Int) < (N : Int) - 1) := by omega
      rw [hb2v, hb3v]
      simp [hnlt]

/-- C1 amended, witness: `N = 1`, at the reachable state
`go_forwards (initWindow 1)` (which is `At(0) = At(N-1)`). -/
theorem go_forwards_spec_witness :
    (go_forwards (go_forwards (initWindow 1))).action_index =
      (match (go_forwards (initWindow 1)).action_index with
       | none => some 0
       | some i => some (i + 1)) ∧
    ((go_forwards (initWindow 1)).action_index = some ((1 : Int) - 1) →
      (go_forwards (initWindow 1)).b2 = false ∧
      (go_forwards (initWindow 1)).b3 = false) :=
  go_forwards_spec 1 (by decide) (go_forwards (initWindow 1))
    (Reachable.forward _ Reachable.init rfl)

/-- C2 counterexample: `go_backwards` from `BeforeStart` (the initial state
of a one-action window) does not complete as a no-op — Python evaluates
`None == 0` to `False` and then `None -= 1` raises a `TypeError`. -/
theorem go_backwards_beforestart_raises :
    go_backwards (initWindow 1) = .error "TypeError" := rfl

/-- C2 amended: `go_backwards` maps `At(0)` to `BeforeStart` and `At(i)` to
`At(i-1)` for `i ≠ 0`, but from `BeforeStart` it raises a `TypeError`
instead of performing a no-op; the UI never invokes it there because on
every reachable state with `action_index = None` the backward controls are
disabled. -/
theorem go_backwards_spec (N : Nat) (hN : 0 < N) (w : NavWindow)
    (h : Reachable N w) :
    (w.action_index = none →
      w.b1 = false ∧ go_backwards w = .error "TypeError") ∧
    (∀ i : Int, w.action_index = some i →
      (go_backwards w).map NavWindow.action_index =
        .ok (if i = 0 then none else some (i - 1))) := by
  obtain ⟨hnum, hcase⟩ := navInv_reachable hN h
  constructor
  · intro hidx
    rcases hcase with ⟨_, _, hb1, _, _⟩ | ⟨i, hidx', _⟩
    · exact ⟨hb1, by rw [go_backwards, hidx]⟩
    · rw [hidx] at hidx'; cases hidx'
  · intro i hidx
    rw [go_backwards, hidx]
    by_cases hi0 : i = 0 <;> simp [hi0, Except.map]

/-- C2 amended, witness: `N = 1` at the initial state `BeforeStart`. -/
theorem go_backwards_spec_witness :
    ((initWindow 1).action_index = none →
      (initWindow 1).b1 = false ∧
      go_backwards (initWindow 1) = .error "TypeError") ∧
    (∀ i : Int, (initWindow 1).action_index = some i →
      (go_backwards (initWindow 1)).map NavWindow.action_index =
        .ok (if i = 0 then none else some (i - 1))) :=
  go_backwards_spec 1 (by decide) (initWindow 1) Reachable.init

/-- C4 counterexample: with an empty action sequence (`N = 0`) the initial
state (reached by the `go_to_beginning()` call in `__init__`) leaves the
forward (`>`) and end (`>>`) controls enabled, not disabled as claimed. -/
theorem availability_empty_enabled :
    Reachable 0 (initWindow 0) ∧ (initWindow 0).action_index = none ∧
    (initWindow 0).b2 = true ∧ (initWindow 0).b3 = true :=
  ⟨Reachable.init, rfl, rfl, rfl⟩

/-- C4 amended: for `N > 0`, on every UI-reachable state the forward
controls (`>` and `>>`) are disabled exactly when the state is `At(N-1)`,
and the backward controls (`<<` and `<`) are disabled exactly when the
state is `BeforeStart`. For `N = 0` the claim fails: the initial
`go_to_beginning` enables the forward controls unconditionally (the host
refuses to open a replay of an empty history before a window exists). -/
theorem availability_booleans (N : Nat) (hN : 0 < N) (w : NavWindow)
    (h : Reachable N w) :
    (w.b2 = false ↔ w.action_index = some ((N : Int) - 1)) ∧
    (w.b3 = false ↔ w.action_index = some ((N : Int) - 1)) ∧
    (w.b0 = false ↔ w.action_index = none) ∧
    (w.b1 = false ↔ w.action_index = none) := by
  obtain ⟨hnum, hcase⟩ := navInv_reachable hN h
  rcases hcase with ⟨hidx, h0, h1, h2, h3⟩ | ⟨i, hidx, hle, h0, h1, h2, h3⟩
  · rw [hidx, h0, h1, h2, h3]
    refine ⟨by simp, by simp, by simp, by simp⟩
  · rw [hidx, h0, h1, h2, h3]
    have key : (decide ((i : Int) < (N : Int) - 1) = false) ↔
        (some ((i : Int)) = some ((N : Int) - 1)) := by
      simp only [decide_eq_false_iff_not, not_lt, Option.some.injEq]
      constructor <;> intro hh <;> omega
    exact ⟨key, key, by simp, by simp⟩

/-- C4 amended, witness: `N = 1` at the initial state. -/
theorem availability_booleans_witness :
    ((initWindow 1).b2 = false ↔
      (initWindow 1).action_index = some ((1 : Int) - 1)) ∧
    ((initWindow 1).b3 = false ↔
      (initWindow 1).action_index = some ((1 : Int) - 1)) ∧
    ((initWindow 1).b0 = false ↔ (initWindow 1).action_index = none) ∧
    ((initWindow 1).b1 = false ↔ (initWindow 1).action_index = none) :=
  availability_booleans 1 (by decide) (initWindow 1) Reachable.init

/-- C5 counterexample: with two actions, `go_to_end` reaches
`At(1) = At(N-1)`, and `go_forwards` there is not a "true no-op confirmed
by state equality" — it advances the index to `2`. -/
theorem go_forwards_at_end_advances :
    (go_to_end (initWindow 2)).action_index = some 1 ∧
    (go_forwards (go_to_end (initWindow 2))).action_index = some 2 ∧
    some (2 : Int) ≠ some (1 : Int) := by decide

/-- C5 amended: from every UI-reachable state (`N > 0`), `go_forwards`
followed by `go_backwards` succeeds and restores the original
`action_index` — with no exceptions at the boundaries, because the two
claimed boundary "no-ops" do not exist in the code (`go_backwards` from
`BeforeStart` raises, `go_forwards` from `At(N-1)` advances out of range)
and are unreachable through the disabled controls. -/
theorem forward_backward_roundtrip (N : Nat) (hN : 0 < N) (w : NavWindow)
    (h : Reachable N w) :
    (go_backwards (go_forwards w)).map NavWindow.action_index =
      .ok w.action_index := by
  obtain ⟨hnum, hcase⟩ := navInv_reachable hN h
  rcases hcase with ⟨hidx, _⟩ | ⟨i, hidx, _⟩
  · simp [go_forwards, go_backwards, hidx, Except.map]
  · have hne : ¬ ((i : Int) + 1 = 0) := by omega
    simp only [go_forwards, hidx, go_backwards, hne, if_neg, Except.map]
    simp

/-- C5 amended, witness: `N = 1` at the initial state `BeforeStart`. -/
theorem forward_backward_roundtrip_witness :
    (go_backwards (go_forwards (initWindow 1))).map NavWindow.action_index =
      .ok (initWindow 1).action_index :=
  forward_backward_roundtrip 1 (by decide) (initWindow 1) Reachable.init

/-- C6 counterexample: with an empty action sequence (`N = 0`),
`go_to_beginning` followed by `go_to_end` is not a no-op leaving a valid
`NavigationPosition`: `go_to_end` sets `action_index = len([]) - 1 = -1`,
which is neither `BeforeStart` (`None`) nor an index in `[0, N-1]`. -/
theorem goToEnd_empty_not_noop :
    (go_to_end (go_to_beginning (initWindow 0))).action_index = some (-1) ∧
    some ((-1 : Int)) ≠ (none : Option Int) ∧ (-1 : Int) < 0 := by decide

/-- C6 amended: for every `N > 0`, `go_to_beginning` followed by
`go_to_end` lands on `At(N-1)`, a valid non-negative index; for `N = 0`
the code instead sets the index to `-1` (see the counterexample). -/
theorem goToStart_then_goToEnd (N : Nat) (hN : 0 < N) (w : NavWindow)
    (hw : w.numActions = N) :
    (go_to_end (go_to_beginning w)).action_index = some ((N : Int) - 1) ∧
    (0 : Int) ≤ (N : Int) - 1 := by
  constructor
  · simp [go_to_end, go_to_beginning, hw]
  · omega

/-- C6 amended, witness at `N = 1`. -/
theorem goToStart_then_goToEnd_witness :
    (go_to_end (go_to_beginning (initWindow 1))).action_index =
      some ((1 : Int) - 1) ∧ (0 : Int) ≤ (1 : Int) - 1 :=
  goToStart_then_goToEnd 1 (by decide) (initWindow 1) rfl

end RcChessReplay

namespace RcChessReplay

/-! ## Action sequence builder (ReplayWindow.__init__, lines 115-136)

The `GameHistory` class (with `turns()`, `has_move`, `has_sense` and the
per-turn accessors) belongs to the reconchess package but is outside this
script, so its per-turn view is modelled from the spec; the loop body that
builds `self.actions` is embedded from the source. -/

/-- Modelled from the spec: a Turn is an ordinal pair
`(turn_number : non-negative integer, color : Color)`; color `true` is
white, the first player, following python-chess (`chess.WHITE` is `True`). -/
structure Turn where
  turn_number : Nat
  color : Bool
  deriving DecidableEq, Repr

/-- Modelled from the spec: the Turn Model's linear order key,
`turn_number × 2 + color-as-0-or-1`, the first player ordering before the
second within a round. -/
def orderKey (t : Turn) : Nat :=
  2 * t.turn_number + (if t.color then 0 else 1)

/-- A chess move as stored in the history (`chess.Move`): source and
target squares. -/
structure Move where
  from_square : Nat
  to_square : Nat
  deriving DecidableEq, Repr

/-- Modelled from the spec: a MoveRecord carries the requested move, the
taken move, the capture square and the board snapshot after the move
(the fields read through `history.requested_move`, `history.taken_move`,
`history.capture_square`, `history.truth_fen_after_move`). -/
structure MoveRecord where
  requested_move : Option Move
  taken_move : Option Move
  capture_square : Option Nat
  fen : String
  deriving DecidableEq, Repr

/-- Modelled from the spec: a SenseRecord carries the sensed square and a
revealed list of (square, optional piece). -/
structure SenseRecord where
  sense_square : Nat
  revealed : List (Nat × Option String)
  deriving DecidableEq, Repr

/-- Modelled from the spec: the per-turn view of a GameHistoryRecord as
iterated by `history.turns()` — one entry per turn, with the turn's
optional SenseRecord (queried by `history.has_sense`) and optional
MoveRecord (queried by `history.has_move`). -/
structure TurnRecord where
  turn : Turn
  senseRecord : Option SenseRecord
  moveRecord : Option MoveRecord
  deriving DecidableEq, Repr

/-- The renderable action dictionary appended to `self.actions`
(source lines 128-136); `phase` is the string stored under the
`phase` key. -/
structure Action where
  phase : String
  turn_number : Nat
  turn_color : Bool
  requested_move : Option Move
  taken_move : Option Move
  capture_square : Option Nat
  fen : String
  deriving DecidableEq, Repr

/-- The Turn-order key of an action, from its recorded turn fields. -/
def actionKey (a : Action) : Nat :=
  2 * a.turn_number + (if a.turn_color then 0 else 1)

/-- The `move`-phase dictionary built in the loop body
(source lines 128-136). -/
def mkMoveAction (t : TurnRecord) (m : MoveRecord) : Action :=
  { phase := "move",
    turn_number := t.turn.turn_number,
    turn_color := t.turn.color,
    requested_move := m.requested_move,
    taken_move := m.taken_move,
    capture_square := m.capture_square,
    fen := m.fen }

/-- Embeds the action-building loop of `ReplayWindow.__init__` (source
lines 115-136). The sense branch (lines 117-126) is commented out in the
source, so the loop appends an action only when `history.has_move(turn)`,
and that action has phase `move`. -/
def buildActions : List TurnRecord → List Action
  | [] => []
  | t :: ts =>
    match t.moveRecord with
    | some m => mkMoveAction t m :: buildActions ts
    | none => buildActions ts

/-- The phase dispatch in `ReplayWindow.draw` (source lines 286-290). -/
inductive DrawCall where
  | sense
  | move
  deriving DecidableEq, Repr

/-- Embeds the renderer dispatch of `ReplayWindow.draw` (source lines
286-290): `if self.actions[self.action_index]['phase'] == 'sense'` draw
the sense overlay, else draw the move overlay. -/
def drawPhase (a : Action) : DrawCall :=
  if a.phase = "sense" then DrawCall.sense else DrawCall.move

theorem buildActions_length (ts : List TurnRecord) :
    (buildActions ts).length = ts.countP (fun t => t.moveRecord.isSome) := by
  induction ts with
  | nil => rfl
  | cons t ts ih =>
    rw [List.countP_cons]
    cases hm : t.moveRecord <;> simp [buildActions, hm, ih]

theorem mem_buildActions {a : Action} {ts : List TurnRecord}
    (h : a ∈ buildActions ts) :
    ∃ t ∈ ts, ∃ m, t.moveRecord = some m ∧ a = mkMoveAction t m := by
  induction ts with
  | nil => cases h
  | cons t ts ih =>
    rw [buildActions] at h
    cases hm : t.moveRecord with
    | none =>
      rw [hm] at h
      obtain ⟨t', ht', hrest⟩ := ih h
      exact ⟨t', List.mem_cons_of_mem _ ht', hrest⟩
    | some m =>
      rw [hm] at h
      rcases List.mem_cons.1 h with rfl | h'
      · exact ⟨t, List.mem_cons_self t ts, m, hm, rfl⟩
      · obtain ⟨t', ht', hrest⟩ := ih h'
        exact ⟨t', List.mem_cons_of_mem _ ht', hrest⟩

theorem buildActions_phase {a : Action} {ts : List TurnRecord}
    (h : a ∈ buildActions ts) : a.phase = "move" := by
  obtain ⟨t, _, m, _, rfl⟩ := mem_buildActions h
  rfl

theorem buildActions_all_move (ts : List TurnRecord) :
    ((buildActions ts).all fun a => a.phase == "move") = true := by
  rw [List.all_eq_true]
  intro a ha
  exact beq_iff_eq.2 (buildActions_phase ha)

theorem buildActions_pairwise {ts : List TurnRecord}
    (h : List.Pairwise (fun a b => orderKey a.turn ≤ orderKey b.turn) ts) :
    List.Pairwise (fun a b => actionKey a ≤ actionKey b) (buildActions ts) := by
  induction h with
  | nil => exact List.Pairwise.nil
  | cons hrel _ ih =>
    rw [buildActions]
    rename_i t ts _
    cases hm : t.moveRecord with
    | none => exact ih
    | some m =>
      refine List.Pairwise.cons ?_ ih
      intro b hb
      obtain ⟨t', ht', m', _, rfl⟩ := mem_buildActions hb
      exact hrel t' ht'

/-- A turn record carrying only a SenseRecord, no MoveRecord. -/
def senseOnlyTurn : TurnRecord :=
  { turn := { turn_number := 0, color := true },
    senseRecord := some { sense_square := 9, revealed := [] },
    moveRecord := none }

/-- A first-player turn record carrying both a SenseRecord and a
MoveRecord. -/
def senseAndMoveTurn : TurnRecord :=
  { turn := { turn_number := 0, color := true },
    senseRecord := some { sense_square := 9, revealed := [] },
    moveRecord := some { requested_move := some { from_square := 12, to_square := 28 },
                         taken_move := some { from_square := 12, to_square := 28 },
                         capture_square := none,
                         fen := "fen-after-e2e4" } }

/-- A second-player turn record carrying only a MoveRecord. -/
def moveOnlyTurnBlack : TurnRecord :=
  { turn := { turn_number := 0, color := false },
    senseRecord := none,
    moveRecord := some { requested_move := some { from_square := 52, to_square := 36 },
                         taken_move := some { from_square := 52, to_square := 36 },
                         capture_square := none,
                         fen := "fen-after-e7e5" } }

/-- C7 counterexample: a well-formed one-turn history whose only turn has
a SenseRecord and no MoveRecord yields an empty action sequence, although
the turn count with at least one recorded event is 1 — and a history whose
turn has both records yields a single `move` action with no Sense action
in front of it. -/
theorem buildActions_ignores_sense_records :
    buildActions [senseOnlyTurn] = [] ∧
    ([senseOnlyTurn].countP fun t =>
      t.senseRecord.isSome || t.moveRecord.isSome) = 1 ∧
    (buildActions [senseAndMoveTurn]).length = 1 ∧
    ((buildActions [senseAndMoveTurn]).all fun a => a.phase == "move") = true := by
  refine ⟨rfl, rfl, rfl, rfl⟩

/-- C7 amended: for every history whose turns are in non-decreasing Turn
order, the built action sequence has length equal to the number of turns
with a recorded MoveRecord (turns with only a SenseRecord are skipped, and
no Sense action is ever emitted), and its actions appear in non-decreasing
Turn order. -/
theorem buildActions_spec (ts : List TurnRecord)
    (hsorted : List.Pairwise (fun a b => orderKey a.turn ≤ orderKey b.turn) ts) :
    (buildActions ts).length = ts.countP (fun t => t.moveRecord.isSome) ∧
    List.Pairwise (fun a b => actionKey a ≤ actionKey b) (buildActions ts) ∧
    ((buildActions ts).all fun a => a.phase == "move") = true :=
  ⟨buildActions_length ts, buildActions_pairwise hsorted,
    buildActions_all_move ts⟩

/-- C7 amended, witness: the two-turn history (white senses and plays
e2e4, black plays e7e5). -/
theorem buildActions_spec_witness :
    (buildActions [senseAndMoveTurn, moveOnlyTurnBlack]).length =
      ([senseAndMoveTurn, moveOnlyTurnBlack].countP fun t =>
        t.moveRecord.isSome) ∧
    List.Pairwise (fun a b => actionKey a ≤ actionKey b)
      (buildActions [senseAndMoveTurn, moveOnlyTurnBlack]) ∧
    ((buildActions [senseAndMoveTurn, moveOnlyTurnBlack]).all fun a =>
      a.phase == "move") = true :=
  buildActions_spec [senseAndMoveTurn, moveOnlyTurnBlack]
    (by simp [List.pairwise_cons, orderKey, senseAndMoveTurn, moveOnlyTurnBlack])

/-- C10: every action the constructor places in the action sequence has
phase `move` — for every input history, including ones whose turns carry
SenseRecords, no sense action is emitted, the sequence length equals the
number of turns with a recorded move, and the renderer dispatch in `draw`
never selects the sense branch for any built action. -/
theorem buildActions_move_only (ts : List TurnRecord) :
    ((buildActions ts).all fun a => a.phase == "move") = true ∧
    (buildActions ts).length = ts.countP (fun t => t.moveRecord.isSome) ∧
    ((buildActions ts).all fun a => decide (drawPhase a = DrawCall.move)) = true := by
  refine ⟨buildActions_all_move ts, buildActions_length ts, ?_⟩
  rw [List.all_eq_true]
  intro a ha
  have hp : a.phase = "move" := buildActions_phase ha
  simp [drawPhase, hp]

end RcChessReplay

namespace RcChessReplay

/-! ## PGN loader (pgn_loader, source lines 15-39)

`open(fname)` and `chess.pgn.read_game` are external; the resource is
modelled by its observable outcomes: the file cannot be opened (`open`
raises `OSError`, the one exception the `except` clause catches), the
content yields no game (`read_game` returns `None`, so the subsequent
`game.headers` raises an uncaught `AttributeError` — the malformed-content
channel), or a parsed game with headers and a main line. A Python call
that returns normally is `Except.ok (printed output, returned value)`; an
uncaught exception is `Except.error`. -/

/-- A main-line move of the parsed game, together with the value of the
`board.is_capture(move)` oracle at its position (external python-chess
board state, recorded per move). -/
structure PgnMove where
  move : Move
  isCapture : Bool
  deriving DecidableEq, Repr

/-- A successfully parsed PGN game: the `White`, `Black` and `Result`
headers and the main-line moves. -/
structure PgnGame where
  white : String
  black : String
  result : String
  moves : List PgnMove
  deriving DecidableEq, Repr

/-- The observable outcomes of opening and parsing the input resource. -/
inductive PgnResource where
  | unreadable
  | noGame
  | game (g : PgnGame)
  deriving DecidableEq, Repr

/-- An uncaught Python exception escaping `pgn_loader`. -/
inductive PyError where
  | attributeError (msg : String)
  deriving DecidableEq, Repr

/-- One entry of `history._taken_moves`, as written by
`history.store_move(board.turn, move, move, capture_square)`. -/
structure StoredMove where
  color : Bool
  requested_move : Move
  taken_move : Move
  capture_square : Option Nat
  deriving DecidableEq, Repr

/-- The `GameHistory` fields assigned by `pgn_loader`
(source lines 18-36). -/
structure GameHistory where
  white_name : String
  black_name : String
  win_reason : Option String
  winner_color : Option Bool
  taken_moves_white : List StoredMove
  taken_moves_black : List StoredMove
  senses_white : List Nat
  senses_black : List Nat
  deriving DecidableEq, Repr

/-- The move loop of `pgn_loader` (source lines 25-32): `board.turn`
starts at `chess.WHITE` (`true`) and alternates after each push;
`store_move` appends to the mover's per-color list, with
`capture_square = move.to_square` exactly when the move is a capture.
Returns the (white, black) move lists. -/
def storeMoves (turn : Bool) : List PgnMove → List StoredMove × List StoredMove
  | [] => ([], [])
  | m :: ms =>
    let rest := storeMoves (!turn) ms
    let sm : StoredMove :=
      { color := turn, requested_move := m.move, taken_move := m.move,
        capture_square := if m.isCapture then some m.move.to_square else none }
    if turn then (sm :: rest.1, rest.2) else (rest.1, sm :: rest.2)

/-- The history assembled by the success path of `pgn_loader`
(source lines 18-37): names from the headers, `win_reason = None`,
`winner_color` from the `Result` header, the stored move lists, and a
placeholder full-visibility sense (`[1] * count`) per recorded turn. -/
def buildHistory (g : PgnGame) : GameHistory :=
  let tm := storeMoves true g.moves
  { white_name := g.white,
    black_name := g.black,
    win_reason := none,
    winner_color :=
      if g.result = "1-0" then some true
      else if g.result = "0-1" then some false else none,
    taken_moves_white := tm.1,
    taken_moves_black := tm.2,
    senses_white := List.replicate tm.1.length 1,
    senses_black := List.replicate tm.2.length 1 }

/-- Embeds `pgn_loader` (source lines 15-39): the `try` block wraps the
whole body and catches only `OSError` — that branch prints
`Error reading PNG file.` and falls off the function, returning `None`;
a `read_game` result of `None` makes `game.headers` raise an uncaught
`AttributeError`; otherwise the assembled history is returned. -/
def pgn_loader : PgnResource → Except PyError (List String × Option GameHistory)
  | .unreadable => .ok (["Error reading PNG file."], none)
  | .noGame => .error (.attributeError "NoneType has no attribute headers")
  | .game g => .ok ([], some (buildHistory g))

/-- C9: when the input resource cannot be opened, `pgn_loader` takes the
`except OSError` branch — it prints the error message and returns `None`
(the ResourceUnavailable surface), never a `GameHistory` as if loading had
succeeded; malformed content that yields no game escapes on a different
channel (an uncaught exception), distinct from the resource-unavailable
outcome. -/
theorem pgn_loader_resource_unavailable :
    pgn_loader PgnResource.unreadable =
      .ok (["Error reading PNG file."], none) ∧
    (pgn_loader PgnResource.unreadable).map (fun p => p.2.isSome) =
      .ok false ∧
    (pgn_loader PgnResource.noGame).isOk = false ∧
    (pgn_loader PgnResource.unreadable).isOk = true := by
  refine ⟨rfl, rfl, rfl, rfl⟩

end RcChessReplay
